import Mathlib

/-!
Verification of the core data model of `src/libsystemd-terminal/term-internal.h`:
character handles, sequence flag constants, charset catalog, scrollback history,
the UTF-8 codec and the control-sequence state machine.

Functions whose bodies are present in the header (the `static inline` helpers)
are translated directly from that source.  Functions that the header only
declares (their `.c` bodies are not part of the repository snapshot) are
modelled from the specification and marked as such in their doc comments.
-/

namespace Term

/-! ### Character handles

`struct term_char { uint64_t _value; }` (term-internal.h, line 82).  The low
bit of the payload discriminates the two encodings: inline handles have the
low bit set and pack up to three 21-bit UCS-4 code points in the remaining 63
bits; allocated handles have the low bit clear and the remaining bits are a
reference to an owned, zero-terminated UCS-4 sequence.  The zero value is
reserved as `TERM_CHAR_NULL`. -/

structure term_char_t where
  _value : Nat
  deriving DecidableEq, Repr

def TERM_CHAR_NULL : term_char_t := ⟨0⟩

/-- Modelled from the spec: the heap of owned UCS-4 sequences backing
allocated handles.  Address `i` stores the sequence `mem[i]`; the handle
value referencing address `i` is `2 * (i + 1)`, which is non-zero and has
the low bit clear.  A freed slot is overwritten with the empty sequence. -/
abbrev TermCharHeap := List (List Nat)

/-- Address encoded in an allocated handle value. -/
def term_char_addr (ch : term_char_t) : Nat := ch._value / 2 - 1

/-- Handle value referencing heap address `i`. -/
def term_char_ref (i : Nat) : term_char_t := ⟨2 * (i + 1)⟩

/-- `term_char_is_null` (term-internal.h, lines 103-106):
true if `ch` is `TERM_CHAR_NULL`, otherwise false. -/
def term_char_is_null (ch : term_char_t) : Bool :=
  ch._value == 0

/-- `term_char_is_allocated` (term-internal.h, lines 108-111):
true if `ch` is dynamically allocated and needs to be freed, i.e.
`!term_char_is_null(ch) && !(ch._value & 0x1)`. -/
def term_char_is_allocated (ch : term_char_t) : Bool :=
  !term_char_is_null ch && ch._value % 2 == 0

/-- Modelled from the spec: the three 21-bit inline slots of an inline handle
(low bit set; the remaining 63 bits pack up to three UCS-4 code points,
first slot lowest).  A zero slot terminates the packed sequence. -/
def term_char_inline_seq (v : Nat) : List Nat :=
  let s0 := v / 2 % 2 ^ 21
  let s1 := v / 2 ^ 22 % 2 ^ 21
  let s2 := v / 2 ^ 43 % 2 ^ 21
  if s0 = 0 then []
  else if s1 = 0 then [s0]
  else if s2 = 0 then [s0, s1]
  else [s0, s1, s2]

/-- Inline handle holding the single code point `c` (low bit set, `c` in the
first 21-bit slot). -/
def term_char_inline1 (c : Nat) : term_char_t := ⟨1 + 2 * (c % 2 ^ 21)⟩

/-- Modelled from the spec: `term_char_resolve` (declared at term-internal.h,
line 100; body not in the snapshot) returns the UCS-4 sequence a handle
resolves to: the empty sequence for `TERM_CHAR_NULL`, the packed slots for an
inline handle, and the owned heap sequence for an allocated handle. -/
def term_char_resolve (heap : TermCharHeap) (ch : term_char_t) : List Nat :=
  if ch._value = 0 then []
  else if ch._value % 2 = 1 then term_char_inline_seq ch._value
  else List.getD heap (term_char_addr ch) []

/-- `term_char_same` (term-internal.h, lines 113-116):
true if `(a == b)`; this is `(a == b)`, NOT `(*a == *b)`. -/
def term_char_same (a b : term_char_t) : Bool :=
  a._value == b._value

/-- `term_char_equal` (term-internal.h, lines 118-127): resolves both handles
and compares length and contents (`na == nb && !memcmp(sa, sb, ...)`). -/
def term_char_equal (heap : TermCharHeap) (a b : term_char_t) : Bool :=
  term_char_resolve heap a == term_char_resolve heap b

/-- Modelled from the spec: `term_char_dup` (declared at term-internal.h,
line 97; body not in the snapshot) deep-copies an allocated handle into a
fresh heap slot and is a no-op on inline (and null) handles.  Returns the
grown heap together with the duplicate handle. -/
def term_char_dup (heap : TermCharHeap) (ch : term_char_t) :
    TermCharHeap × term_char_t :=
  if term_char_is_allocated ch then
    (heap ++ [term_char_resolve heap ch], term_char_ref heap.length)
  else
    (heap, ch)

/-- Modelled from the spec: `term_char_set prev base` (declared at
term-internal.h, line 95; body not in the snapshot) frees `prev` if it is
allocated and returns an inline handle holding `base`, or `TERM_CHAR_NULL`
when `base == 0`.  Freeing overwrites the heap slot with the empty
sequence. -/
def term_char_set (heap : TermCharHeap) (prev : term_char_t) (base : Nat) :
    TermCharHeap × term_char_t :=
  let heap' :=
    if term_char_is_allocated prev then List.set heap (term_char_addr prev) []
    else heap
  (heap', if base = 0 then TERM_CHAR_NULL else term_char_inline1 base)

/-- `term_char_free` (term-internal.h, lines 129-135): frees `ch` in case it
is dynamically allocated — by calling `term_char_set(ch, 0)` for its
side-effect — and returns `TERM_CHAR_NULL`. -/
def term_char_free (heap : TermCharHeap) (ch : term_char_t) :
    TermCharHeap × term_char_t :=
  if term_char_is_allocated ch then
    ((term_char_set heap ch 0).1, TERM_CHAR_NULL)
  else
    (heap, TERM_CHAR_NULL)

/-! ### Sequence-type and command enumerators (term-internal.h, lines 372-384
and 416-596).  Only the enumerators the development uses are spelled out; the
two we need numerically are the first two of the `TERM_CMD_*` enum. -/

def TERM_SEQ_NONE : Nat := 0
def TERM_SEQ_IGNORE : Nat := 1
def TERM_SEQ_GRAPHIC : Nat := 2
def TERM_SEQ_CONTROL : Nat := 3
def TERM_SEQ_ESCAPE : Nat := 4
def TERM_SEQ_CSI : Nat := 5
def TERM_SEQ_DCS : Nat := 6
def TERM_SEQ_OSC : Nat := 7

def TERM_CMD_NONE : Nat := 0
def TERM_CMD_GRAPHIC : Nat := 1

/-! ### Intermediate-character flags (term-internal.h, lines 386-414).
The source comment demands the values be kept compatible to
`(1U << (ch - 0x20))`, with the colon (bit 26) and semicolon (bit 27)
positions reserved. -/

def TERM_SEQ_FLAG_SPACE : Nat := 1 <<< 0
def TERM_SEQ_FLAG_BANG : Nat := 1 <<< 1
def TERM_SEQ_FLAG_DQUOTE : Nat := 1 <<< 2
def TERM_SEQ_FLAG_HASH : Nat := 1 <<< 3
def TERM_SEQ_FLAG_CASH : Nat := 1 <<< 4
def TERM_SEQ_FLAG_PERCENT : Nat := 1 <<< 5
def TERM_SEQ_FLAG_AND : Nat := 1 <<< 6
def TERM_SEQ_FLAG_SQUOTE : Nat := 1 <<< 7
def TERM_SEQ_FLAG_POPEN : Nat := 1 <<< 8
def TERM_SEQ_FLAG_PCLOSE : Nat := 1 <<< 9
def TERM_SEQ_FLAG_MULT : Nat := 1 <<< 10
def TERM_SEQ_FLAG_PLUS : Nat := 1 <<< 11
def TERM_SEQ_FLAG_COMMA : Nat := 1 <<< 12
def TERM_SEQ_FLAG_MINUS : Nat := 1 <<< 13
def TERM_SEQ_FLAG_DOT : Nat := 1 <<< 14
def TERM_SEQ_FLAG_SLASH : Nat := 1 <<< 15
def TERM_SEQ_FLAG_LT : Nat := 1 <<< 28
def TERM_SEQ_FLAG_EQUAL : Nat := 1 <<< 29
def TERM_SEQ_FLAG_GT : Nat := 1 <<< 30
def TERM_SEQ_FLAG_WHAT : Nat := 1 <<< 31

/-- The twenty `TERM_SEQ_FLAG_*` constants defined by the header, in source
order. -/
def term_seq_flag_values : List Nat :=
  [TERM_SEQ_FLAG_SPACE, TERM_SEQ_FLAG_BANG, TERM_SEQ_FLAG_DQUOTE,
   TERM_SEQ_FLAG_HASH, TERM_SEQ_FLAG_CASH, TERM_SEQ_FLAG_PERCENT,
   TERM_SEQ_FLAG_AND, TERM_SEQ_FLAG_SQUOTE, TERM_SEQ_FLAG_POPEN,
   TERM_SEQ_FLAG_PCLOSE, TERM_SEQ_FLAG_MULT, TERM_SEQ_FLAG_PLUS,
   TERM_SEQ_FLAG_COMMA, TERM_SEQ_FLAG_MINUS, TERM_SEQ_FLAG_DOT,
   TERM_SEQ_FLAG_SLASH, TERM_SEQ_FLAG_LT, TERM_SEQ_FLAG_EQUAL,
   TERM_SEQ_FLAG_GT, TERM_SEQ_FLAG_WHAT]

/-- The flag constant the header assigns to intermediate / private-marker
character `ch`, if any: `TERM_SEQ_FLAG_SPACE` for 0x20 through
`TERM_SEQ_FLAG_SLASH` for 0x2F, and `TERM_SEQ_FLAG_LT` .. `TERM_SEQ_FLAG_WHAT`
for 0x3C..0x3F.  No flag is defined for any other character (in particular
not for colon 0x3A and semicolon 0x3B, whose bits are reserved). -/
def term_seq_flag_of_char (ch : Nat) : Option Nat :=
  if 0x20 ≤ ch ∧ ch ≤ 0x2F then some (term_seq_flag_values.getD (ch - 0x20) 0)
  else if 0x3C ≤ ch ∧ ch ≤ 0x3F then
    some (term_seq_flag_values.getD (ch - 0x3C + 16) 0)
  else none

/-! ### Charset catalog (term-internal.h, lines 598-651).
A C enum: each enumerator is one more than its predecessor unless given an
explicit value; the NRCS aliases are assigned explicitly. -/

def TERM_CHARSET_NONE : Nat := 0
def TERM_CHARSET_ISO_LATIN1_SUPPLEMENTAL : Nat := TERM_CHARSET_NONE + 1
def TERM_CHARSET_BRITISH_NRCS : Nat := TERM_CHARSET_ISO_LATIN1_SUPPLEMENTAL
def TERM_CHARSET_ISO_LATIN2_SUPPLEMENTAL : Nat := TERM_CHARSET_BRITISH_NRCS + 1
def TERM_CHARSET_AMERICAN_NRCS : Nat := TERM_CHARSET_ISO_LATIN2_SUPPLEMENTAL
def TERM_CHARSET_ISO_LATIN5_SUPPLEMENTAL : Nat := TERM_CHARSET_AMERICAN_NRCS + 1
def TERM_CHARSET_ISO_GREEK_SUPPLEMENTAL : Nat := TERM_CHARSET_ISO_LATIN5_SUPPLEMENTAL + 1
def TERM_CHARSET_ISO_HEBREW_SUPPLEMENTAL : Nat := TERM_CHARSET_ISO_GREEK_SUPPLEMENTAL + 1
def TERM_CHARSET_ISO_LATIN_CYRILLIC : Nat := TERM_CHARSET_ISO_HEBREW_SUPPLEMENTAL + 1
def TERM_CHARSET_96_CNT : Nat := TERM_CHARSET_ISO_LATIN_CYRILLIC + 1

/-! ### Scrollback history (term-internal.h, lines 325-342).
`struct term_history` keeps a doubly-linked FIFO of lines with `n_lines` and
`max_lines`; we model the list of lines abstractly (head = `lines_first`,
last = `lines_last`) and identify lines by a label.  The operation bodies are
not part of the snapshot and are modelled from the spec. -/

structure term_history where
  lines : List Nat
  max_lines : Nat
  deriving DecidableEq, Repr

def term_history_n_lines (h : term_history) : Nat := h.lines.length

/-- Modelled from the spec: `term_history_push` (declared at term-internal.h,
line 340; body not in the snapshot): append `line` at the tail; if
`n_lines == max_lines`, drop the head line. -/
def term_history_push (h : term_history) (line : Nat) : term_history :=
  let ls := if h.lines.length = h.max_lines then h.lines.tail else h.lines
  { h with lines := ls ++ [line] }

/-- Modelled from the spec: `term_history_pop` (declared at term-internal.h,
line 341; body not in the snapshot): detach and return the tail line, or
nothing when the history is empty.  (The width-reconciliation of the popped
line does not affect the line count.) -/
def term_history_pop (h : term_history) : term_history × Option Nat :=
  ({ h with lines := h.lines.dropLast }, h.lines.getLast?)

/-- Modelled from the spec: `term_history_trim` (declared at term-internal.h,
line 339; body not in the snapshot): drop head entries until
`n_lines ≤ max`. -/
def term_history_trim (h : term_history) (max : Nat) : term_history :=
  { h with lines := h.lines.drop (h.lines.length - max) }

/-- Modelled from the spec: `term_history_clear` (declared at
term-internal.h, line 338; body not in the snapshot): drop all lines. -/
def term_history_clear (h : term_history) : term_history :=
  { h with lines := [] }

/-- The four mutating history operations. -/
inductive HistOp where
  | push (line : Nat)
  | pop
  | trim (max : Nat)
  | clear
  deriving DecidableEq, Repr

def histStep (h : term_history) : HistOp → term_history
  | .push line => term_history_push h line
  | .pop => (term_history_pop h).1
  | .trim max => term_history_trim h max
  | .clear => term_history_clear h

def histRun (h : term_history) (ops : List HistOp) : term_history :=
  ops.foldl histStep h

/-! ### UTF-8 codec (term-internal.h, lines 344-362).
`struct term_utf8` keeps up to four pending bytes of an incomplete sequence
(`chars[5]` output slots, `n_bytes`/`i_bytes` counters).  The bodies of
`term_utf8_decode` and `term_utf8_encode` are not part of the snapshot and
are modelled from the spec. -/

structure term_utf8 where
  /-- Buffered bytes of an incomplete multi-byte sequence, lead byte first. -/
  pending : List Nat
  /-- Expected total length of the pending sequence (0 when none pending). -/
  n_bytes : Nat
  deriving DecidableEq, Repr

def term_utf8_empty : term_utf8 := ⟨[], 0⟩

/-- Expected sequence length for a lead byte, or 0 for a byte that cannot
start a multi-byte sequence. -/
def utf8_lead_len (b : Nat) : Nat :=
  if b < 0xC0 then 0
  else if b < 0xE0 then 2
  else if b < 0xF0 then 3
  else if b < 0xF8 then 4
  else 0

def utf8_is_cont (b : Nat) : Prop := 0x80 ≤ b ∧ b < 0xC0

instance (b : Nat) : Decidable (utf8_is_cont b) := by
  unfold utf8_is_cont; infer_instance

/-- Assemble the UCS-4 value of a complete 2-, 3- or 4-byte sequence from its
payload bits. -/
def utf8_assemble : List Nat → Nat
  | [b0, b1] => b0 % 32 * 64 + b1 % 64
  | [b0, b1, b2] => b0 % 16 * 4096 + b1 % 64 * 64 + b2 % 64
  | [b0, b1, b2, b3] => b0 % 8 * 262144 + b1 % 64 * 4096 + b2 % 64 * 64 + b3 % 64
  | l => utf8_assemble_default l
where
  utf8_assemble_default : List Nat → Nat
  | [b] => b
  | _ => 0

/-- Modelled from the spec: `term_utf8_decode` (declared at term-internal.h,
line 362; body not in the snapshot).  Stateful, one byte at a time; returns
the new state together with the resolved code points (empty when more input
is needed).  For any invalid lead or continuation byte it emits the code
points decoded so far — the buffered bytes, each re-interpreted as Latin-1 —
plus the offending byte re-interpreted as Latin-1; it never fails, and 7-bit
data passes through unchanged. -/
def term_utf8_decode (p : term_utf8) (b : Nat) : term_utf8 × List Nat :=
  match p.pending with
  | [] =>
      if b < 0x80 then (term_utf8_empty, [b])
      else
        match utf8_lead_len b with
        | 0 => (term_utf8_empty, [b])
        | n + 1 => (⟨[b], n + 1⟩, [])
  | pb =>
      if utf8_is_cont b then
        if pb.length + 1 = p.n_bytes then
          (term_utf8_empty, [utf8_assemble (pb ++ [b])])
        else
          (⟨pb ++ [b], p.n_bytes⟩, [])
      else
        (term_utf8_empty, pb ++ [b])

/-- Feed a whole byte list through the decoder, collecting all emitted code
points. -/
def term_utf8_decode_all (p : term_utf8) : List Nat → term_utf8 × List Nat
  | [] => (p, [])
  | b :: bs =>
      ((term_utf8_decode_all (term_utf8_decode p b).1 bs).1,
       (term_utf8_decode p b).2 ++ (term_utf8_decode_all (term_utf8_decode p b).1 bs).2)

/-- A UCS-4 value the codec treats as valid: not a surrogate and not above
0x10FFFF. -/
def ucs4_valid (g : Nat) : Prop :=
  g < 0x110000 ∧ ¬(0xD800 ≤ g ∧ g ≤ 0xDFFF)

instance (g : Nat) : Decidable (ucs4_valid g) := by
  unfold ucs4_valid; infer_instance

/-- Standard UTF-8 encoding of a valid code point. -/
def term_utf8_encode_valid (g : Nat) : List Nat :=
  if g < 0x80 then [g]
  else if g < 0x800 then [0xC0 + g / 64, 0x80 + g % 64]
  else if g < 0x10000 then
    [0xE0 + g / 4096, 0x80 + g / 64 % 64, 0x80 + g % 64]
  else
    [0xF0 + g / 262144, 0x80 + g / 4096 % 64, 0x80 + g / 64 % 64, 0x80 + g % 64]

/-- Modelled from the spec: `term_utf8_encode` (declared at term-internal.h,
line 361; body not in the snapshot): UCS-4 to up to 4 bytes of standard
UTF-8; invalid code points (surrogates, above 0x10FFFF) encode as U+FFFD. -/
def term_utf8_encode (g : Nat) : List Nat :=
  if ucs4_valid g then term_utf8_encode_valid g else term_utf8_encode_valid 0xFFFD

/-- Well-formed decoder state: either idle, or a lead byte plus continuations
buffered for a sequence of expected length at most 4, not yet complete, all
buffered values being bytes. -/
def utf8_wf (p : term_utf8) : Prop :=
  (p.pending = [] ∧ p.n_bytes = 0) ∨
  (p.pending ≠ [] ∧ p.pending.length < p.n_bytes ∧ p.n_bytes ≤ 4 ∧
    ∀ x ∈ p.pending, x < 256)

/-! ### Control-sequence state machine (term-internal.h, lines 658-686).
`TERM_PARSER_ARG_MAX`, `TERM_PARSER_ST_MAX`, `struct term_seq` and
`struct term_parser` come from the header; the body of `term_parser_feed` is
not in the snapshot and is modelled from the spec (the DEC/ECMA-48 VT500
state diagram with the states listed in the spec; overflow of the parameter
list or the string payload routes the sequence to the corresponding IGNORE
state, whose closing terminator still emits a record with the synthetic
command `TERM_CMD_NONE`). -/

def TERM_PARSER_ARG_MAX : Nat := 16
def TERM_PARSER_ST_MAX : Nat := 4096

/-- `struct term_seq` (term-internal.h, lines 661-671); `n_args` and `n_st`
are the lengths of `args` and `st`. -/
structure term_seq where
  type : Nat
  command : Nat
  terminator : Nat
  intermediates : Nat
  charset : Nat
  args : List Int
  st : List Nat
  deriving DecidableEq, Repr

def term_seq_reset : term_seq :=
  ⟨TERM_SEQ_NONE, TERM_CMD_NONE, 0, 0, 0, [], []⟩

/-- The DFA states named by the spec.  `oscIgnore` is the IGNORE mode of the
OSC string state (overflow discards further bytes but remains within the
sequence until the terminator). -/
inductive ParserState where
  | ground
  | escape
  | escapeInt
  | csiEntry
  | csiParam
  | csiInt
  | csiIgnore
  | dcsEntry
  | dcsParam
  | dcsInt
  | dcsPass
  | dcsIgnore
  | oscString
  | oscIgnore
  | stIgnore
  deriving DecidableEq, Repr

/-- `struct term_parser` (term-internal.h, lines 673-679), with the digits of
the in-progress integer parameter held in `cur_arg` (the C code accumulates
them in `seq.args[seq.n_args]` before `n_args` is bumped). -/
structure TermParser where
  seq : term_seq
  cur_arg : Option Nat
  state : ParserState
  is_host : Bool
  deriving DecidableEq, Repr

def term_parser_init (host : Bool) : TermParser :=
  ⟨term_seq_reset, none, .ground, host⟩

/-- Modelled from the spec: the sparse command-lookup table keyed by
(type, final byte, intermediates, `is_host`).  Only a representative entry is
spelled out (`CSI H` with no intermediates resolves to `TERM_CMD_GRAPHIC + 1`
stands in for the cursor-position command); every unlisted key yields
`TERM_CMD_NONE`, which is also the synthetic command of ignored sequences. -/
def term_cmd_lookup (ty final inter : Nat) (host : Bool) : Nat :=
  if host ∧ ty = TERM_SEQ_CSI ∧ final = 0x48 ∧ inter = 0 then TERM_CMD_GRAPHIC + 1
  else if ty = TERM_SEQ_GRAPHIC then TERM_CMD_GRAPHIC
  else TERM_CMD_NONE

/-- Commit the in-progress parameter (empty represented as `-1`), respecting
the 16-argument bound. -/
def commit_arg (args : List Int) (cur : Option Nat) : List Int :=
  if args.length < TERM_PARSER_ARG_MAX then
    args ++ [(Option.elim cur (-1) fun v => (v : Int))]
  else args

/-- Accumulate an intermediate or private-marker character into the
`intermediates` bitmask: the mapping is `1U << (ch - 0x20)`. -/
def collect_inter (inter raw : Nat) : Nat :=
  inter ||| 1 <<< (raw - 0x20)

def parser_digit (raw : Nat) : Prop := 0x30 ≤ raw ∧ raw ≤ 0x39

def parser_final (raw : Nat) : Prop := 0x40 ≤ raw ∧ raw ≤ 0x7E

def parser_inter_char (raw : Nat) : Prop := 0x20 ≤ raw ∧ raw ≤ 0x2F

def parser_priv_char (raw : Nat) : Prop := 0x3C ≤ raw ∧ raw ≤ 0x3F

instance (raw : Nat) : Decidable (parser_digit raw) := by
  unfold parser_digit; infer_instance
instance (raw : Nat) : Decidable (parser_final raw) := by
  unfold parser_final; infer_instance
instance (raw : Nat) : Decidable (parser_inter_char raw) := by
  unfold parser_inter_char; infer_instance
instance (raw : Nat) : Decidable (parser_priv_char raw) := by
  unfold parser_priv_char; infer_instance

/-- A string terminator inside a string state: BEL-alias or the C1 ST (the
two-byte `ESC \` form arrives as the ESC anywhere-rule). -/
def parser_st_char (raw : Nat) : Prop := raw = 0x07 ∨ raw = 0x9C

instance (raw : Nat) : Decidable (parser_st_char raw) := by
  unfold parser_st_char; infer_instance

/-- Emit the accumulated sequence as type `ty` terminated by `final`, with
the command resolved by the lookup table, and reset the parser to GROUND. -/
def parser_close (p : TermParser) (ty final : Nat) (args : List Int) :
    TermParser × Option term_seq :=
  (⟨term_seq_reset, none, .ground, p.is_host⟩,
   some { p.seq with
            type := ty
            command := term_cmd_lookup ty final p.seq.intermediates p.is_host
            terminator := final
            args := args })

/-- Close an ignored sequence: the final terminator still closes it, with the
synthetic command `TERM_CMD_NONE`. -/
def parser_close_ignored (p : TermParser) (ty final : Nat) :
    TermParser × Option term_seq :=
  (⟨term_seq_reset, none, .ground, p.is_host⟩,
   some { p.seq with
            type := ty
            command := TERM_CMD_NONE
            terminator := final })

def parser_feed_ground (p : TermParser) (raw : Nat) :
    TermParser × Option term_seq :=
  if raw < 0x20 then
    (p, some { term_seq_reset with
                 type := TERM_SEQ_CONTROL
                 command := term_cmd_lookup TERM_SEQ_CONTROL raw 0 p.is_host
                 terminator := raw })
  else if raw = 0x7F then (p, none)
  else
    (p, some { term_seq_reset with
                 type := TERM_SEQ_GRAPHIC
                 command := TERM_CMD_GRAPHIC
                 terminator := raw })

def parser_feed_escape (p : TermParser) (raw : Nat) :
    TermParser × Option term_seq :=
  if parser_inter_char raw then
    ({ p with state := .escapeInt,
              seq := { p.seq with intermediates := collect_inter p.seq.intermediates raw } },
     none)
  else if raw = 0x5B then ({ p with state := .csiEntry }, none)
  else if raw = 0x5D then ({ p with state := .oscString }, none)
  else if raw = 0x50 then ({ p with state := .dcsEntry }, none)
  else if raw = 0x58 ∨ raw = 0x5E ∨ raw = 0x5F then
    ({ p with state := .stIgnore }, none)
  else if 0x30 ≤ raw ∧ raw ≤ 0x7E then
    parser_close p TERM_SEQ_ESCAPE raw p.seq.args
  else (p, none)

def parser_feed_escape_int (p : TermParser) (raw : Nat) :
    TermParser × Option term_seq :=
  if parser_inter_char raw then
    ({ p with seq := { p.seq with intermediates := collect_inter p.seq.intermediates raw } },
     none)
  else if 0x30 ≤ raw ∧ raw ≤ 0x7E then
    parser_close p TERM_SEQ_ESCAPE raw p.seq.args
  else (p, none)

def parser_feed_csi_entry (p : TermParser) (raw : Nat) :
    TermParser × Option term_seq :=
  if parser_digit raw then
    ({ p with state := .csiParam, cur_arg := some (raw - 0x30) }, none)
  else if raw = 0x3B then
    ({ p with state := .csiParam,
              seq := { p.seq with args := commit_arg p.seq.args none } },
     none)
  else if raw = 0x3A then ({ p with state := .csiParam }, none)
  else if parser_priv_char raw then
    ({ p with state := .csiParam,
              seq := { p.seq with intermediates := collect_inter p.seq.intermediates raw } },
     none)
  else if parser_inter_char raw then
    ({ p with state := .csiInt,
              seq := { p.seq with intermediates := collect_inter p.seq.intermediates raw } },
     none)
  else if parser_final raw then
    parser_close p TERM_SEQ_CSI raw p.seq.args
  else (p, none)

def parser_feed_csi_param (p : TermParser) (raw : Nat) :
    TermParser × Option term_seq :=
  if parser_digit raw then
    match p.cur_arg with
    | some v => ({ p with cur_arg := some (v * 10 + (raw - 0x30)) }, none)
    | none =>
        if p.seq.args.length < TERM_PARSER_ARG_MAX then
          ({ p with cur_arg := some (raw - 0x30) }, none)
        else ({ p with state := .csiIgnore, cur_arg := none }, none)
  else if raw = 0x3B then
    if p.seq.args.length < TERM_PARSER_ARG_MAX then
      ({ p with cur_arg := none,
                seq := { p.seq with args := commit_arg p.seq.args p.cur_arg } },
       none)
    else ({ p with state := .csiIgnore, cur_arg := none }, none)
  else if raw = 0x3A then (p, none)
  else if parser_priv_char raw then
    ({ p with state := .csiIgnore, cur_arg := none }, none)
  else if parser_inter_char raw then
    ({ p with state := .csiInt, cur_arg := none,
              seq := { p.seq with
                         args := if p.cur_arg.isSome then
                                   commit_arg p.seq.args p.cur_arg
                                 else p.seq.args
                         intermediates := collect_inter p.seq.intermediates raw } },
     none)
  else if parser_final raw then
    parser_close p TERM_SEQ_CSI raw (commit_arg p.seq.args p.cur_arg)
  else (p, none)

def parser_feed_csi_int (p : TermParser) (raw : Nat) :
    TermParser × Option term_seq :=
  if parser_inter_char raw then
    ({ p with seq := { p.seq with intermediates := collect_inter p.seq.intermediates raw } },
     none)
  else if 0x30 ≤ raw ∧ raw ≤ 0x3F then
    ({ p with state := .csiIgnore }, none)
  else if parser_final raw then
    parser_close p TERM_SEQ_CSI raw p.seq.args
  else (p, none)

def parser_feed_csi_ignore (p : TermParser) (raw : Nat) :
    TermParser × Option term_seq :=
  if parser_final raw then
    parser_close_ignored p TERM_SEQ_CSI raw
  else (p, none)

def parser_feed_dcs_entry (p : TermParser) (raw : Nat) :
    TermParser × Option term_seq :=
  if parser_digit raw then
    ({ p with state := .dcsParam, cur_arg := some (raw - 0x30) }, none)
  else if raw = 0x3B then
    ({ p with state := .dcsParam,
              seq := { p.seq with args := commit_arg p.seq.args none } },
     none)
  else if raw = 0x3A then ({ p with state := .dcsParam }, none)
  else if parser_priv_char raw then
    ({ p with state := .dcsParam,
              seq := { p.seq with intermediates := collect_inter p.seq.intermediates raw } },
     none)
  else if parser_inter_char raw then
    ({ p with state := .dcsInt,
              seq := { p.seq with intermediates := collect_inter p.seq.intermediates raw } },
     none)
  else if parser_final raw then
    ({ p with state := .dcsPass, seq := { p.seq with terminator := raw } }, none)
  else (p, none)

def parser_feed_dcs_param (p : TermParser) (raw : Nat) :
    TermParser × Option term_seq :=
  if parser_digit raw then
    match p.cur_arg with
    | some v => ({ p with cur_arg := some (v * 10 + (raw - 0x30)) }, none)
    | none =>
        if p.seq.args.length < TERM_PARSER_ARG_MAX then
          ({ p with cur_arg := some (raw - 0x30) }, none)
        else ({ p with state := .dcsIgnore, cur_arg := none }, none)
  else if raw = 0x3B then
    if p.seq.args.length < TERM_PARSER_ARG_MAX then
      ({ p with cur_arg := none,
                seq := { p.seq with args := commit_arg p.seq.args p.cur_arg } },
       none)
    else ({ p with state := .dcsIgnore, cur_arg := none }, none)
  else if raw = 0x3A then (p, none)
  else if parser_priv_char raw then
    ({ p with state := .dcsIgnore, cur_arg := none }, none)
  else if parser_inter_char raw then
    ({ p with state := .dcsInt, cur_arg := none,
              seq := { p.seq with
                         args := if p.cur_arg.isSome then
                                   commit_arg p.seq.args p.cur_arg
                                 else p.seq.args
                         intermediates := collect_inter p.seq.intermediates raw } },
     none)
  else if parser_final raw then
    ({ p with state := .dcsPass, cur_arg := none,
              seq := { p.seq with
                         args := commit_arg p.seq.args p.cur_arg
                         terminator := raw } },
     none)
  else (p, none)

def parser_feed_dcs_int (p : TermParser) (raw : Nat) :
    TermParser × Option term_seq :=
  if parser_inter_char raw then
    ({ p with seq := { p.seq with intermediates := collect_inter p.seq.intermediates raw } },
     none)
  else if 0x30 ≤ raw ∧ raw ≤ 0x3F then
    ({ p with state := .dcsIgnore }, none)
  else if parser_final raw then
    ({ p with state := .dcsPass, seq := { p.seq with terminator := raw } }, none)
  else (p, none)

def parser_feed_dcs_pass (p : TermParser) (raw : Nat) :
    TermParser × Option term_seq :=
  if parser_st_char raw then
    parser_close p TERM_SEQ_DCS p.seq.terminator p.seq.args
  else if p.seq.st.length < TERM_PARSER_ST_MAX then
    ({ p with seq := { p.seq with st := p.seq.st ++ [raw] } }, none)
  else ({ p with state := .dcsIgnore }, none)

def parser_feed_dcs_ignore (p : TermParser) (raw : Nat) :
    TermParser × Option term_seq :=
  if parser_st_char raw then
    parser_close_ignored p TERM_SEQ_DCS raw
  else (p, none)

def parser_feed_osc_string (p : TermParser) (raw : Nat) :
    TermParser × Option term_seq :=
  if parser_st_char raw then
    parser_close p TERM_SEQ_OSC raw p.seq.args
  else if p.seq.st.length < TERM_PARSER_ST_MAX then
    ({ p with seq := { p.seq with st := p.seq.st ++ [raw] } }, none)
  else ({ p with state := .oscIgnore }, none)

def parser_feed_osc_ignore (p : TermParser) (raw : Nat) :
    TermParser × Option term_seq :=
  if parser_st_char raw then
    parser_close_ignored p TERM_SEQ_OSC raw
  else (p, none)

def parser_feed_st_ignore (p : TermParser) (raw : Nat) :
    TermParser × Option term_seq :=
  if parser_st_char raw then
    (⟨term_seq_reset, none, .ground, p.is_host⟩, none)
  else (p, none)

/-- After closing a string sequence on ESC, the parser continues in the
ESCAPE state (the `\` of `ESC \` is then handled as an escape final byte). -/
def parser_to_escape (pq : TermParser × Option term_seq) :
    TermParser × Option term_seq :=
  ({ pq.1 with state := .escape }, pq.2)

/-- Modelled from the spec: `term_parser_feed` (declared at term-internal.h,
line 683; body not in the snapshot).  One step of the VT500 DFA on a decoded
UCS-4 value: CAN/SUB abort the current sequence back to GROUND emitting
`TERM_SEQ_IGNORE`; ESC aborts into the ESCAPE state, closing a pending
string sequence (the `ESC \` form of ST); otherwise the current state
dispatches. -/
def term_parser_feed (p : TermParser) (raw : Nat) :
    TermParser × Option term_seq :=
  if raw = 0x18 ∨ raw = 0x1A then
    (⟨term_seq_reset, none, .ground, p.is_host⟩,
     some { term_seq_reset with type := TERM_SEQ_IGNORE, terminator := raw })
  else if raw = 0x1B then
    match p.state with
    | .oscString => parser_to_escape (parser_close p TERM_SEQ_OSC raw p.seq.args)
    | .oscIgnore => parser_to_escape (parser_close_ignored p TERM_SEQ_OSC raw)
    | .dcsPass =>
        parser_to_escape (parser_close p TERM_SEQ_DCS p.seq.terminator p.seq.args)
    | .dcsIgnore => parser_to_escape (parser_close_ignored p TERM_SEQ_DCS raw)
    | _ => (⟨term_seq_reset, none, .escape, p.is_host⟩, none)
  else
    match p.state with
    | .ground => parser_feed_ground p raw
    | .escape => parser_feed_escape p raw
    | .escapeInt => parser_feed_escape_int p raw
    | .csiEntry => parser_feed_csi_entry p raw
    | .csiParam => parser_feed_csi_param p raw
    | .csiInt => parser_feed_csi_int p raw
    | .csiIgnore => parser_feed_csi_ignore p raw
    | .dcsEntry => parser_feed_dcs_entry p raw
    | .dcsParam => parser_feed_dcs_param p raw
    | .dcsInt => parser_feed_dcs_int p raw
    | .dcsPass => parser_feed_dcs_pass p raw
    | .dcsIgnore => parser_feed_dcs_ignore p raw
    | .oscString => parser_feed_osc_string p raw
    | .oscIgnore => parser_feed_osc_ignore p raw
    | .stIgnore => parser_feed_st_ignore p raw

/-- Run the parser over a list of code points, collecting every emitted
sequence record. -/
def term_parser_run (p : TermParser) : List Nat → TermParser × List term_seq
  | [] => (p, [])
  | c :: cs =>
      let (p', out) := term_parser_feed p c
      let (p'', outs) := term_parser_run p' cs
      (p'', Option.elim out outs fun s => s :: outs)

/-- Boundedness invariant of the accumulating sequence record: at most 16
integer arguments and at most 4096 string-payload bytes. -/
def parser_inv (p : TermParser) : Prop :=
  p.seq.args.length ≤ TERM_PARSER_ARG_MAX ∧
  p.seq.st.length ≤ TERM_PARSER_ST_MAX

instance (p : TermParser) : Decidable (parser_inv p) := by
  unfold parser_inv; infer_instance

/-! ## Helper lemmas -/

theorem term_char_resolve_append_copy (heap : TermCharHeap) (ch : term_char_t) :
    term_char_resolve (heap ++ [term_char_resolve heap ch]) ch =
      term_char_resolve heap ch := by
  by_cases h0 : ch._value = 0
  · simp [term_char_resolve, h0]
  by_cases h1 : ch._value % 2 = 1
  · simp [term_char_resolve, h0, h1]
  · have hres : ∀ hp : TermCharHeap,
        term_char_resolve hp ch = hp.getD (term_char_addr ch) [] := by
      intro hp; simp [term_char_resolve, h0, h1]
    simp only [hres]
    rcases lt_or_ge (term_char_addr ch) heap.length with hlt | hge
    · exact List.getD_append _ _ _ _ hlt
    · have hdef : heap.getD (term_char_addr ch) [] = [] :=
        List.getD_eq_default _ _ hge
      rw [hdef, List.getD_append_right _ _ _ _ hge]
      cases hsub : term_char_addr ch - heap.length <;> rfl

theorem term_char_resolve_ref_append (heap : TermCharHeap) (s : List Nat) :
    term_char_resolve (heap ++ [s]) (term_char_ref heap.length) = s := by
  unfold term_char_resolve term_char_ref term_char_addr
  rw [if_neg (by simp), if_neg (by simp [Nat.mul_mod_right])]
  have haddr : 2 * (heap.length + 1) / 2 - 1 = heap.length := by omega
  rw [haddr, List.getD_append_right _ _ _ _ (le_refl _), Nat.sub_self]
  rfl

theorem term_char_dup_equal (heap : TermCharHeap) (ch : term_char_t) :
    term_char_equal (term_char_dup heap ch).1 ch (term_char_dup heap ch).2 = true := by
  unfold term_char_dup
  by_cases hall : term_char_is_allocated ch = true
  · simp only [hall, if_true]
    unfold term_char_equal
    rw [term_char_resolve_append_copy, term_char_resolve_ref_append]
    simp
  · simp only [hall, Bool.false_eq_true, if_false]
    unfold term_char_equal
    simp

/-! ## Claim theorems: character handles -/

/-- Claim C1: identity equality implies content equality but not vice versa:
if `term_char_same a b` (bitwise equality) then `term_char_equal a b` (same
UCS-4 sequence); there are handles that are `equal` but not `same`; for every
handle `h`, `term_char_equal h (term_char_dup h)` holds while
`term_char_same h (term_char_dup h)` may be false (it is false for an
allocated handle, whose duplicate lives at a fresh address). -/
theorem term_char_same_implies_equal_not_conversely :
    (∀ (heap : TermCharHeap) (a b : term_char_t),
        term_char_same a b = true → term_char_equal heap a b = true) ∧
    (∃ (heap : TermCharHeap) (a b : term_char_t),
        term_char_equal heap a b = true ∧ term_char_same a b = false) ∧
    (∀ (heap : TermCharHeap) (ch : term_char_t),
        term_char_equal (term_char_dup heap ch).1 ch (term_char_dup heap ch).2 = true) ∧
    ∃ (heap : TermCharHeap) (ch : term_char_t),
      term_char_same ch (term_char_dup heap ch).2 = false := by
  refine ⟨?_, ⟨[[65], [65]], ⟨2⟩, ⟨4⟩, by decide, by decide⟩,
    term_char_dup_equal, ⟨[[65]], ⟨2⟩, by decide⟩⟩
  intro heap a b hsame
  cases a; cases b
  simp only [term_char_same, beq_iff_eq] at hsame
  subst hsame
  simp [term_char_equal]

/-- Witness for C1: applied at two concrete bitwise-equal handles. -/
theorem term_char_same_implies_equal_witness :
    term_char_equal [] ⟨3⟩ ⟨3⟩ = true :=
  term_char_same_implies_equal_not_conversely.1 [] ⟨3⟩ ⟨3⟩ (by decide)

/-- Claim C2: `term_char_is_allocated h` holds exactly when `h` is non-null
and its low bit is clear; in particular `term_char_is_allocated
TERM_CHAR_NULL` is false even though the null value's low bit is clear, and no
handle is both null and allocated. -/
theorem term_char_is_allocated_spec :
    (∀ ch : term_char_t,
        term_char_is_allocated ch = true ↔
          ch ≠ TERM_CHAR_NULL ∧ ch._value % 2 = 0) ∧
    term_char_is_allocated TERM_CHAR_NULL = false ∧
    ∀ ch : term_char_t,
      ¬(term_char_is_null ch = true ∧ term_char_is_allocated ch = true) := by
  refine ⟨fun ch => ?_, by decide, fun ch h => ?_⟩
  · obtain ⟨v⟩ := ch
    simp [term_char_is_allocated, term_char_is_null, TERM_CHAR_NULL,
      term_char_t.mk.injEq, Nat.mod_two_eq_zero_or_one]
  · obtain ⟨hnull, hall⟩ := h
    obtain ⟨v⟩ := ch
    simp [term_char_is_null, term_char_is_allocated] at hnull hall
    exact hall.1 hnull

/-- Witness for C2: applied at the concrete allocated handle value 2. -/
theorem term_char_is_allocated_spec_witness :
    term_char_is_allocated ⟨2⟩ = true :=
  (term_char_is_allocated_spec.1 ⟨2⟩).mpr ⟨by decide, by decide⟩

/-- Claim C3: `term_char_free` is a no-op on non-allocated handles — the heap
and the result are exactly `(heap, TERM_CHAR_NULL)` with no freeing call —
while on allocated handles it frees the storage by calling
`term_char_set ch 0`. -/
theorem term_char_free_noop_on_inline :
    (∀ (heap : TermCharHeap) (ch : term_char_t),
        term_char_is_allocated ch = false →
          term_char_free heap ch = (heap, TERM_CHAR_NULL)) ∧
    ∀ (heap : TermCharHeap) (ch : term_char_t),
      term_char_is_allocated ch = true →
        term_char_free heap ch = ((term_char_set heap ch 0).1, TERM_CHAR_NULL) := by
  constructor <;> intro heap ch h <;> simp [term_char_free, h]

/-- Witness for C3: applied at a concrete inline handle and a concrete
allocated handle. -/
theorem term_char_free_noop_on_inline_witness :
    term_char_free [[65]] ⟨3⟩ = ([[65]], TERM_CHAR_NULL) ∧
    term_char_free [[65]] ⟨2⟩ = ((term_char_set [[65]] ⟨2⟩ 0).1, TERM_CHAR_NULL) :=
  ⟨term_char_free_noop_on_inline.1 [[65]] ⟨3⟩ (by decide),
   term_char_free_noop_on_inline.2 [[65]] ⟨2⟩ (by decide)⟩

/-- Claim C10: `term_char_free` returns `TERM_CHAR_NULL` for every input
handle — null, inline, or allocated — so `ch = term_char_free(ch)` always
leaves the caller's variable holding the empty-cell value, and freeing the
returned handle again is a no-op (no double-free through it). -/
theorem term_char_free_returns_null :
    ∀ (heap : TermCharHeap) (ch : term_char_t),
      (term_char_free heap ch).2 = TERM_CHAR_NULL ∧
      term_char_is_allocated (term_char_free heap ch).2 = false ∧
      term_char_free (term_char_free heap ch).1 (term_char_free heap ch).2 =
        ((term_char_free heap ch).1, TERM_CHAR_NULL) := by
  intro heap ch
  have h2 : (term_char_free heap ch).2 = TERM_CHAR_NULL := by
    unfold term_char_free; split <;> rfl
  refine ⟨h2, ?_, ?_⟩
  · rw [h2]; rfl
  · rw [h2]
    unfold term_char_free
    rw [if_neg (by decide)]

/-! ## Claim theorems: flag constants and charset catalog -/

/-- Claim C7: every intermediate character in 0x20–0x2F maps to the flag
`1 << (ch - 0x20)` (`TERM_SEQ_FLAG_SPACE` through `TERM_SEQ_FLAG_SLASH`), the
private markers `<=>?` (0x3C–0x3F) occupy bits 28–31 under the same mapping,
no flag is defined for colon (0x3A) or semicolon (0x3B), and no defined flag
occupies the reserved bits 26 and 27. -/
theorem term_seq_flag_mapping :
    (∀ ch : Nat, 0x20 ≤ ch → ch ≤ 0x2F →
        term_seq_flag_of_char ch = some (1 <<< (ch - 0x20))) ∧
    (∀ ch : Nat, 0x3C ≤ ch → ch ≤ 0x3F →
        term_seq_flag_of_char ch = some (1 <<< (ch - 0x20))) ∧
    term_seq_flag_of_char 0x3A = none ∧
    term_seq_flag_of_char 0x3B = none ∧
    ∀ f ∈ term_seq_flag_values, f ≠ 1 <<< 26 ∧ f ≠ 1 <<< 27 := by
  refine ⟨?_, ?_, by decide, by decide, by decide⟩ <;>
    · intro ch h1 h2
      interval_cases ch <;> decide

/-- Witness for C7: applied at the concrete characters `!` (0x21) and
`?` (0x3F). -/
theorem term_seq_flag_mapping_witness :
    term_seq_flag_of_char 0x21 = some (1 <<< (0x21 - 0x20)) ∧
    term_seq_flag_of_char 0x3F = some (1 <<< (0x3F - 0x20)) :=
  ⟨term_seq_flag_mapping.1 0x21 (by decide) (by decide),
   term_seq_flag_mapping.2.1 0x3F (by decide) (by decide)⟩

/-- Claim C9: in the charset catalog the British NRCS selector denotes the
same table as ISO Latin-1 Supplemental, and the American NRCS selector the
same table as ISO Latin-2 Supplemental. -/
theorem term_charset_nrcs_aliases :
    TERM_CHARSET_BRITISH_NRCS = TERM_CHARSET_ISO_LATIN1_SUPPLEMENTAL ∧
    TERM_CHARSET_AMERICAN_NRCS = TERM_CHARSET_ISO_LATIN2_SUPPLEMENTAL :=
  ⟨rfl, rfl⟩

/-! ## Helper lemmas: UTF-8 decoder steps -/

theorem utf8_decode_empty_ascii (b : Nat) (h : b < 0x80) :
    term_utf8_decode term_utf8_empty b = (term_utf8_empty, [b]) := by
  unfold term_utf8_decode term_utf8_empty
  simp [h]

theorem utf8_decode_empty_lead (b n : Nat) (hb : ¬ b < 0x80)
    (hl : utf8_lead_len b = n + 1) :
    term_utf8_decode term_utf8_empty b = (⟨[b], n + 1⟩, []) := by
  unfold term_utf8_decode term_utf8_empty
  simp [hb, hl]

theorem utf8_decode_empty_invalid (b : Nat) (hb : ¬ b < 0x80)
    (hl : utf8_lead_len b = 0) :
    term_utf8_decode term_utf8_empty b = (term_utf8_empty, [b]) := by
  unfold term_utf8_decode term_utf8_empty
  simp [hb, hl]

theorem utf8_decode_cont_complete (b0 : Nat) (rest : List Nat) (n b : Nat)
    (hc : utf8_is_cont b) (hlen : (b0 :: rest).length + 1 = n) :
    term_utf8_decode ⟨b0 :: rest, n⟩ b =
      (term_utf8_empty, [utf8_assemble ((b0 :: rest) ++ [b])]) := by
  show (if utf8_is_cont b then
          if (b0 :: rest).length + 1 = n then
            (term_utf8_empty, [utf8_assemble ((b0 :: rest) ++ [b])])
          else (⟨(b0 :: rest) ++ [b], n⟩, [])
        else (term_utf8_empty, (b0 :: rest) ++ [b])) = _
  rw [if_pos hc, if_pos hlen]

theorem utf8_decode_cont_more (b0 : Nat) (rest : List Nat) (n b : Nat)
    (hc : utf8_is_cont b) (hlen : ¬ (b0 :: rest).length + 1 = n) :
    term_utf8_decode ⟨b0 :: rest, n⟩ b = (⟨(b0 :: rest) ++ [b], n⟩, []) := by
  show (if utf8_is_cont b then
          if (b0 :: rest).length + 1 = n then
            (term_utf8_empty, [utf8_assemble ((b0 :: rest) ++ [b])])
          else (⟨(b0 :: rest) ++ [b], n⟩, [])
        else (term_utf8_empty, (b0 :: rest) ++ [b])) = _
  rw [if_pos hc, if_neg hlen]

theorem utf8_decode_invalid_cont (b0 : Nat) (rest : List Nat) (n b : Nat)
    (hc : ¬ utf8_is_cont b) :
    term_utf8_decode ⟨b0 :: rest, n⟩ b = (term_utf8_empty, (b0 :: rest) ++ [b]) := by
  show (if utf8_is_cont b then
          if (b0 :: rest).length + 1 = n then
            (term_utf8_empty, [utf8_assemble ((b0 :: rest) ++ [b])])
          else (⟨(b0 :: rest) ++ [b], n⟩, [])
        else (term_utf8_empty, (b0 :: rest) ++ [b])) = _
  rw [if_neg hc]

theorem utf8_lead_len_cases (b : Nat) :
    utf8_lead_len b = 0 ∨ (2 ≤ utf8_lead_len b ∧ utf8_lead_len b ≤ 4) := by
  unfold utf8_lead_len
  repeat' split
  all_goals omega

theorem utf8_decode_two (b0 b1 : Nat) (h00 : 0xC0 ≤ b0) (h01 : b0 < 0xE0)
    (h1 : utf8_is_cont b1) :
    term_utf8_decode_all term_utf8_empty [b0, b1] =
      (term_utf8_empty, [b0 % 32 * 64 + b1 % 64]) := by
  have hl : utf8_lead_len b0 = 2 := by
    unfold utf8_lead_len
    rw [if_neg (by omega), if_pos (by omega)]
  simp only [term_utf8_decode_all, utf8_decode_empty_lead b0 1 (by omega) hl,
    utf8_decode_cont_complete b0 [] 2 b1 h1 (by rfl)]
  simp [utf8_assemble]

theorem utf8_decode_three (b0 b1 b2 : Nat) (h00 : 0xE0 ≤ b0) (h01 : b0 < 0xF0)
    (h1 : utf8_is_cont b1) (h2 : utf8_is_cont b2) :
    term_utf8_decode_all term_utf8_empty [b0, b1, b2] =
      (term_utf8_empty, [b0 % 16 * 4096 + b1 % 64 * 64 + b2 % 64]) := by
  have hl : utf8_lead_len b0 = 3 := by
    unfold utf8_lead_len
    rw [if_neg (by omega), if_neg (by omega), if_pos (by omega)]
  simp only [term_utf8_decode_all, utf8_decode_empty_lead b0 2 (by omega) hl,
    List.cons_append, List.nil_append,
    utf8_decode_cont_more b0 [] 3 b1 h1 (by simp),
    utf8_decode_cont_complete b0 [b1] 3 b2 h2 (by rfl)]
  simp [utf8_assemble]

theorem utf8_decode_four (b0 b1 b2 b3 : Nat) (h00 : 0xF0 ≤ b0) (h01 : b0 < 0xF8)
    (h1 : utf8_is_cont b1) (h2 : utf8_is_cont b2) (h3 : utf8_is_cont b3) :
    term_utf8_decode_all term_utf8_empty [b0, b1, b2, b3] =
      (term_utf8_empty,
       [b0 % 8 * 262144 + b1 % 64 * 4096 + b2 % 64 * 64 + b3 % 64]) := by
  have hl : utf8_lead_len b0 = 4 := by
    unfold utf8_lead_len
    rw [if_neg (by omega), if_neg (by omega), if_neg (by omega),
      if_pos (by omega)]
  simp only [term_utf8_decode_all, utf8_decode_empty_lead b0 3 (by omega) hl,
    List.cons_append, List.nil_append,
    utf8_decode_cont_more b0 [] 4 b1 h1 (by simp),
    utf8_decode_cont_more b0 [b1] 4 b2 h2 (by simp),
    utf8_decode_cont_complete b0 [b1, b2] 4 b3 h3 (by rfl)]
  simp [utf8_assemble]

/-! ## Claim theorems: UTF-8 codec -/

/-- Claim C4: the UTF-8 decoder never fails: feeding any byte to a
well-formed decoder state either requests more input (no output, bytes
pending) or emits between 1 and 5 code points; on an invalid continuation
byte it emits the bytes buffered so far plus the offending byte, each
re-interpreted as Latin-1 (0x00..0xFF); the pending scratch never exceeds
4 bytes (so the 5-slot `chars[]` output is never overrun); and the byte pair
`0xC3 0x28` yields U+00C3 followed by U+0028. -/
theorem term_utf8_decode_never_fails :
    (∀ (p : term_utf8) (b : Nat), utf8_wf p → b < 256 →
        utf8_wf (term_utf8_decode p b).1 ∧
        (term_utf8_decode p b).1.pending.length ≤ 4 ∧
        (term_utf8_decode p b).2.length ≤ 5 ∧
        ((term_utf8_decode p b).2 = [] → (term_utf8_decode p b).1.pending ≠ [])) ∧
    (∀ (p : term_utf8) (b : Nat), utf8_wf p → b < 256 →
        p.pending ≠ [] → ¬utf8_is_cont b →
        (term_utf8_decode p b).2 = p.pending ++ [b] ∧
        ∀ x ∈ (term_utf8_decode p b).2, x ≤ 0xFF) ∧
    (term_utf8_decode_all term_utf8_empty [0xC3, 0x28]).2 = [0xC3, 0x28] := by
  refine ⟨?_, ?_, by decide⟩
  · rintro ⟨pending, n⟩ b hwf hb
    cases pending with
    | nil =>
        obtain ⟨_, hn⟩ | ⟨hne, _⟩ := hwf
        · have hn0 : n = 0 := hn
          subst hn0
          by_cases hba : b < 0x80
          · rw [show (⟨[], 0⟩ : term_utf8) = term_utf8_empty from rfl,
              utf8_decode_empty_ascii b hba]
            simp [utf8_wf, term_utf8_empty]
          · rcases utf8_lead_len_cases b with hl | ⟨hl2, hl4⟩
            · rw [show (⟨[], 0⟩ : term_utf8) = term_utf8_empty from rfl,
                utf8_decode_empty_invalid b hba hl]
              simp [utf8_wf, term_utf8_empty]
            · obtain ⟨m, hm⟩ : ∃ m, utf8_lead_len b = m + 1 :=
                ⟨utf8_lead_len b - 1, by omega⟩
              rw [show (⟨[], 0⟩ : term_utf8) = term_utf8_empty from rfl,
                utf8_decode_empty_lead b m hba hm]
              dsimp only
              refine ⟨Or.inr ⟨by simp, by simp; omega, by dsimp only; omega, ?_⟩,
                by simp, by simp, by simp⟩
              intro x hx
              simp at hx
              omega
        · exact absurd rfl hne
    | cons b0 rest =>
        obtain ⟨heq, _⟩ | ⟨_, hlt, hle, hbytes⟩ := hwf
        · exact absurd heq (by simp)
        · have hlt' : rest.length + 1 < n := by simpa using hlt
          have hle' : n ≤ 4 := hle
          have hbytes' : ∀ x ∈ b0 :: rest, x < 256 := hbytes
          by_cases hc : utf8_is_cont b
          · by_cases hfull : (b0 :: rest).length + 1 = n
            · rw [utf8_decode_cont_complete b0 rest n b hc hfull]
              simp [utf8_wf, term_utf8_empty]
            · rw [utf8_decode_cont_more b0 rest n b hc hfull]
              have hfull' : ¬ rest.length + 2 = n := by simpa using hfull
              refine ⟨?_, ?_, ?_, ?_⟩
              · unfold utf8_wf
                refine Or.inr ⟨by simp, ?_, hle', ?_⟩
                · simp
                  omega
                · intro x hx
                  simp at hx
                  rcases hx with hx | hx | hx
                  · have := hbytes' b0 (by simp); omega
                  · have := hbytes' x (by simp [hx]); omega
                  · omega
              · simp
                omega
              · simp
              · simp
          · rw [utf8_decode_invalid_cont b0 rest n b hc]
            refine ⟨?_, by simp [term_utf8_empty], ?_, by simp⟩
            · unfold utf8_wf
              exact Or.inl ⟨rfl, rfl⟩
            · simp
              omega
  · rintro ⟨pending, n⟩ b hwf hb hne hc
    cases pending with
    | nil => exact absurd rfl hne
    | cons b0 rest =>
        rw [utf8_decode_invalid_cont b0 rest n b hc]
        refine ⟨rfl, ?_⟩
        obtain ⟨heq, _⟩ | ⟨_, _, _, hbytes⟩ := hwf
        · exact absurd heq (by simp)
        · have hbytes' : ∀ x ∈ b0 :: rest, x < 256 := hbytes
          intro x hx
          simp at hx
          rcases hx with hx | hx | hx
          · have := hbytes' b0 (by simp); omega
          · have := hbytes' x (by simp [hx]); omega
          · omega

/-- Witness for C4: applied at the fresh decoder state and the byte 0x41. -/
theorem term_utf8_decode_never_fails_witness :
    (term_utf8_decode term_utf8_empty 0x41).2.length ≤ 5 :=
  (term_utf8_decode_never_fails.1 term_utf8_empty 0x41 (Or.inl ⟨rfl, rfl⟩)
    (by decide)).2.2.1

/-- Claim C5: UTF-8 round-trip: for every valid UCS-4 code point `c` (not a
surrogate, not above 0x10FFFF), decoding the bytes of `term_utf8_encode c`
on a fresh decoder yields exactly `[c]` with the decoder idle again;
`term_utf8_encode` emits at most 4 bytes; invalid code points encode exactly
as U+FFFD does. -/
theorem term_utf8_round_trip :
    (∀ c : Nat, ucs4_valid c →
        term_utf8_decode_all term_utf8_empty (term_utf8_encode c) =
          (term_utf8_empty, [c])) ∧
    (∀ g : Nat, (term_utf8_encode g).length ≤ 4) ∧
    ∀ g : Nat, ¬ucs4_valid g → term_utf8_encode g = term_utf8_encode 0xFFFD := by
  refine ⟨?_, ?_, ?_⟩
  · intro c hv
    have hc : c < 0x110000 := hv.1
    rw [show term_utf8_encode c = term_utf8_encode_valid c from
      if_pos hv]
    by_cases h1 : c < 0x80
    · rw [show term_utf8_encode_valid c = [c] from by
        unfold term_utf8_encode_valid; rw [if_pos h1]]
      simp only [term_utf8_decode_all, utf8_decode_empty_ascii c h1]
      simp
    · by_cases h2 : c < 0x800
      · rw [show term_utf8_encode_valid c = [0xC0 + c / 64, 0x80 + c % 64] from by
          unfold term_utf8_encode_valid; rw [if_neg h1, if_pos h2]]
        rw [utf8_decode_two _ _ (by omega) (by omega)
          (by unfold utf8_is_cont; omega)]
        have : (0xC0 + c / 64) % 32 * 64 + (0x80 + c % 64) % 64 = c := by omega
        rw [this]
      · by_cases h3 : c < 0x10000
        · rw [show term_utf8_encode_valid c =
              [0xE0 + c / 4096, 0x80 + c / 64 % 64, 0x80 + c % 64] from by
            unfold term_utf8_encode_valid; rw [if_neg h1, if_neg h2, if_pos h3]]
          rw [utf8_decode_three _ _ _ (by omega) (by omega)
            (by unfold utf8_is_cont; omega) (by unfold utf8_is_cont; omega)]
          have : (0xE0 + c / 4096) % 16 * 4096 + (0x80 + c / 64 % 64) % 64 * 64 +
              (0x80 + c % 64) % 64 = c := by omega
          rw [this]
        · rw [show term_utf8_encode_valid c =
              [0xF0 + c / 262144, 0x80 + c / 4096 % 64, 0x80 + c / 64 % 64,
               0x80 + c % 64] from by
            unfold term_utf8_encode_valid; rw [if_neg h1, if_neg h2, if_neg h3]]
          rw [utf8_decode_four _ _ _ _ (by omega) (by omega)
            (by unfold utf8_is_cont; omega) (by unfold utf8_is_cont; omega)
            (by unfold utf8_is_cont; omega)]
          have : (0xF0 + c / 262144) % 8 * 262144 + (0x80 + c / 4096 % 64) % 64 * 4096 +
              (0x80 + c / 64 % 64) % 64 * 64 + (0x80 + c % 64) % 64 = c := by omega
          rw [this]
  · intro g
    unfold term_utf8_encode term_utf8_encode_valid
    repeat' split
    all_goals simp
  · intro g hg
    rw [term_utf8_encode, if_neg hg]
    rw [term_utf8_encode, if_pos (by decide)]

/-- Witness for C5: applied at the concrete code point U+3042. -/
theorem term_utf8_round_trip_witness :
    term_utf8_decode_all term_utf8_empty (term_utf8_encode 0x3042) =
      (term_utf8_empty, [0x3042]) :=
  term_utf8_round_trip.1 0x3042 (by decide)

/-! ## Claim theorems: scrollback history -/

theorem term_history_push_cap (h : term_history) (line : Nat)
    (hmax : 1 ≤ h.max_lines) (hinv : h.lines.length ≤ h.max_lines) :
    (term_history_push h line).lines.length ≤ h.max_lines := by
  unfold term_history_push
  split
  · simpa using by omega
  · simp only [List.length_append, List.length_cons, List.length_nil]
    omega

/-- Claim C8 counterexample: a history with `max_lines = 0` satisfies
`n_lines ≤ max_lines`, yet a single `term_history_push` leaves
`n_lines = 1 > 0 = max_lines` — there is no head line to drop. -/
theorem term_history_cap_counterexample :
    term_history_n_lines (⟨[], 0⟩ : term_history) ≤
      (term_history.mk [] 0).max_lines ∧
    ¬ term_history_n_lines (histRun ⟨[], 0⟩ [.push 0]) ≤
        (histRun (⟨[], 0⟩ : term_history) [.push 0]).max_lines := by
  decide

/-- Claim C8 (amended): for every history with `n_lines ≤ max_lines` and
`max_lines ≥ 1`, the capacity invariant `n_lines ≤ max_lines` holds after
every sequence of operations; in particular `term_history_push` on a history
with `n_lines = max_lines` drops the head line as part of appending the new
line at the tail, so the count stays exactly at the cap. -/
theorem term_history_cap_invariant :
    (∀ (h : term_history) (ops : List HistOp),
        1 ≤ h.max_lines → term_history_n_lines h ≤ h.max_lines →
        term_history_n_lines (histRun h ops) ≤ (histRun h ops).max_lines) ∧
    (∀ (h : term_history) (line : Nat),
        term_history_n_lines h = h.max_lines →
        (term_history_push h line).lines = h.lines.tail ++ [line]) ∧
    ∀ (h : term_history) (line : Nat),
      1 ≤ h.max_lines → term_history_n_lines h = h.max_lines →
      term_history_n_lines (term_history_push h line) = h.max_lines := by
  refine ⟨?_, ?_, ?_⟩
  · intro h ops
    induction ops generalizing h with
    | nil => intro _ hinv; exact hinv
    | cons op ops ih =>
        intro hmax hinv
        have hstep_max : (histStep h op).max_lines = h.max_lines := by
          cases op <;> rfl
        have hstep : (histStep h op).lines.length ≤ h.max_lines := by
          cases op with
          | push line => exact term_history_push_cap h line hmax hinv
          | pop =>
              simp only [histStep, term_history_pop, List.length_dropLast]
              unfold term_history_n_lines at hinv
              omega
          | trim m =>
              simp only [histStep, term_history_trim, List.length_drop]
              unfold term_history_n_lines at hinv
              omega
          | clear => simp [histStep, term_history_clear]
        have hrun : histRun h (op :: ops) = histRun (histStep h op) ops := rfl
        rw [hrun]
        exact ih (histStep h op) (hstep_max ▸ hmax)
          (by unfold term_history_n_lines; rw [hstep_max]; exact hstep)
  · intro h line hfill
    unfold term_history_push
    unfold term_history_n_lines at hfill
    rw [if_pos hfill]
  · intro h line hmax hfill
    unfold term_history_n_lines at hfill ⊢
    unfold term_history_push
    rw [if_pos hfill]
    simp only [List.length_append, List.length_tail, List.length_cons,
      List.length_nil]
    omega

/-! ## Helper lemmas: parser boundedness -/

theorem commit_arg_length (args : List Int) (cur : Option Nat)
    (h : args.length ≤ TERM_PARSER_ARG_MAX) :
    (commit_arg args cur).length ≤ TERM_PARSER_ARG_MAX := by
  unfold commit_arg
  split
  · simp only [List.length_append, List.length_cons, List.length_nil]
    omega
  · exact h

/-- A feed result is in order when the parser invariant holds for the new
state and any emitted record respects both bounds. -/
def step_ok (pq : TermParser × Option term_seq) : Prop :=
  parser_inv pq.1 ∧
  ∀ s, pq.2 = some s →
    s.args.length ≤ TERM_PARSER_ARG_MAX ∧ s.st.length ≤ TERM_PARSER_ST_MAX

theorem step_ok_none (p' : TermParser) (h : parser_inv p') :
    step_ok (p', none) :=
  ⟨h, fun s hs => by cases hs⟩

theorem parser_inv_reset (cur : Option Nat) (st : ParserState) (host : Bool) :
    parser_inv ⟨term_seq_reset, cur, st, host⟩ := by
  constructor <;>
    simp [term_seq_reset, TERM_PARSER_ARG_MAX, TERM_PARSER_ST_MAX]

theorem step_ok_emit_reset (p' : TermParser) (ty cmd term : Nat)
    (h : parser_inv p') :
    step_ok (p', some { term_seq_reset with
                          type := ty, command := cmd, terminator := term }) := by
  refine ⟨h, fun s hs => ?_⟩
  simp only [Option.some.injEq] at hs
  subst hs
  simp [term_seq_reset, TERM_PARSER_ARG_MAX, TERM_PARSER_ST_MAX]

theorem step_ok_can_sub (host : Bool) (raw : Nat) :
    step_ok (⟨term_seq_reset, none, .ground, host⟩,
             some { term_seq_reset with
                      type := TERM_SEQ_IGNORE, terminator := raw }) := by
  refine ⟨parser_inv_reset _ _ _, fun s hs => ?_⟩
  simp only [Option.some.injEq] at hs
  subst hs
  simp [term_seq_reset, TERM_PARSER_ARG_MAX, TERM_PARSER_ST_MAX]

theorem parser_close_ok (p : TermParser) (ty final : Nat) (args : List Int)
    (hargs : args.length ≤ TERM_PARSER_ARG_MAX)
    (hst : p.seq.st.length ≤ TERM_PARSER_ST_MAX) :
    step_ok (parser_close p ty final args) := by
  unfold parser_close
  refine ⟨parser_inv_reset _ _ _, fun s hs => ?_⟩
  simp only [Option.some.injEq] at hs
  subst hs
  exact ⟨hargs, hst⟩

theorem parser_close_ignored_ok (p : TermParser) (ty final : Nat)
    (hargs : p.seq.args.length ≤ TERM_PARSER_ARG_MAX)
    (hst : p.seq.st.length ≤ TERM_PARSER_ST_MAX) :
    step_ok (parser_close_ignored p ty final) := by
  unfold parser_close_ignored
  refine ⟨parser_inv_reset _ _ _, fun s hs => ?_⟩
  simp only [Option.some.injEq] at hs
  subst hs
  exact ⟨hargs, hst⟩

theorem parser_to_escape_ok (pq : TermParser × Option term_seq)
    (h : step_ok pq) : step_ok (parser_to_escape pq) :=
  ⟨⟨h.1.1, h.1.2⟩, h.2⟩

theorem parser_feed_ground_ok (p : TermParser) (raw : Nat)
    (h1 : p.seq.args.length ≤ TERM_PARSER_ARG_MAX)
    (h2 : p.seq.st.length ≤ TERM_PARSER_ST_MAX) :
    step_ok (parser_feed_ground p raw) := by
  unfold parser_feed_ground
  repeat' split
  all_goals first
    | exact step_ok_emit_reset _ _ _ _ ⟨h1, h2⟩
    | exact step_ok_none _ ⟨h1, h2⟩

theorem parser_feed_escape_ok (p : TermParser) (raw : Nat)
    (h1 : p.seq.args.length ≤ TERM_PARSER_ARG_MAX)
    (h2 : p.seq.st.length ≤ TERM_PARSER_ST_MAX) :
    step_ok (parser_feed_escape p raw) := by
  unfold parser_feed_escape
  repeat' split
  all_goals first
    | exact parser_close_ok _ _ _ _ h1 h2
    | exact step_ok_none _ ⟨h1, h2⟩

theorem parser_feed_escape_int_ok (p : TermParser) (raw : Nat)
    (h1 : p.seq.args.length ≤ TERM_PARSER_ARG_MAX)
    (h2 : p.seq.st.length ≤ TERM_PARSER_ST_MAX) :
    step_ok (parser_feed_escape_int p raw) := by
  unfold parser_feed_escape_int
  repeat' split
  all_goals first
    | exact parser_close_ok _ _ _ _ h1 h2
    | exact step_ok_none _ ⟨h1, h2⟩

theorem parser_feed_csi_entry_ok (p : TermParser) (raw : Nat)
    (h1 : p.seq.args.length ≤ TERM_PARSER_ARG_MAX)
    (h2 : p.seq.st.length ≤ TERM_PARSER_ST_MAX) :
    step_ok (parser_feed_csi_entry p raw) := by
  unfold parser_feed_csi_entry
  repeat' split
  all_goals first
    | exact parser_close_ok _ _ _ _ h1 h2
    | exact step_ok_none _ ⟨commit_arg_length _ _ h1, h2⟩
    | exact step_ok_none _ ⟨h1, h2⟩

theorem parser_feed_csi_param_ok (p : TermParser) (raw : Nat)
    (h1 : p.seq.args.length ≤ TERM_PARSER_ARG_MAX)
    (h2 : p.seq.st.length ≤ TERM_PARSER_ST_MAX) :
    step_ok (parser_feed_csi_param p raw) := by
  unfold parser_feed_csi_param
  repeat' split
  all_goals first
    | exact parser_close_ok _ _ _ _ (commit_arg_length _ _ h1) h2
    | exact step_ok_none _ ⟨commit_arg_length _ _ h1, h2⟩
    | exact step_ok_none _ ⟨h1, h2⟩

theorem parser_feed_csi_int_ok (p : TermParser) (raw : Nat)
    (h1 : p.seq.args.length ≤ TERM_PARSER_ARG_MAX)
    (h2 : p.seq.st.length ≤ TERM_PARSER_ST_MAX) :
    step_ok (parser_feed_csi_int p raw) := by
  unfold parser_feed_csi_int
  repeat' split
  all_goals first
    | exact parser_close_ok _ _ _ _ h1 h2
    | exact step_ok_none _ ⟨h1, h2⟩

theorem parser_feed_csi_ignore_ok (p : TermParser) (raw : Nat)
    (h1 : p.seq.args.length ≤ TERM_PARSER_ARG_MAX)
    (h2 : p.seq.st.length ≤ TERM_PARSER_ST_MAX) :
    step_ok (parser_feed_csi_ignore p raw) := by
  unfold parser_feed_csi_ignore
  repeat' split
  all_goals first
    | exact parser_close_ignored_ok _ _ _ h1 h2
    | exact step_ok_none _ ⟨h1, h2⟩

theorem parser_feed_dcs_entry_ok (p : TermParser) (raw : Nat)
    (h1 : p.seq.args.length ≤ TERM_PARSER_ARG_MAX)
    (h2 : p.seq.st.length ≤ TERM_PARSER_ST_MAX) :
    step_ok (parser_feed_dcs_entry p raw) := by
  unfold parser_feed_dcs_entry
  repeat' split
  all_goals first
    | exact step_ok_none _ ⟨commit_arg_length _ _ h1, h2⟩
    | exact step_ok_none _ ⟨h1, h2⟩

theorem parser_feed_dcs_param_ok (p : TermParser) (raw : Nat)
    (h1 : p.seq.args.length ≤ TERM_PARSER_ARG_MAX)
    (h2 : p.seq.st.length ≤ TERM_PARSER_ST_MAX) :
    step_ok (parser_feed_dcs_param p raw) := by
  unfold parser_feed_dcs_param
  repeat' split
  all_goals first
    | exact step_ok_none _ ⟨commit_arg_length _ _ h1, h2⟩
    | exact step_ok_none _ ⟨h1, h2⟩

theorem parser_feed_dcs_int_ok (p : TermParser) (raw : Nat)
    (h1 : p.seq.args.length ≤ TERM_PARSER_ARG_MAX)
    (h2 : p.seq.st.length ≤ TERM_PARSER_ST_MAX) :
    step_ok (parser_feed_dcs_int p raw) := by
  unfold parser_feed_dcs_int
  repeat' split
  all_goals exact step_ok_none _ ⟨h1, h2⟩

theorem parser_feed_dcs_pass_ok (p : TermParser) (raw : Nat)
    (h1 : p.seq.args.length ≤ TERM_PARSER_ARG_MAX)
    (h2 : p.seq.st.length ≤ TERM_PARSER_ST_MAX) :
    step_ok (parser_feed_dcs_pass p raw) := by
  unfold parser_feed_dcs_pass
  repeat' split
  all_goals first
    | exact parser_close_ok _ _ _ _ h1 h2
    | exact step_ok_none _ ⟨h1, by simp; omega⟩

theorem parser_feed_dcs_ignore_ok (p : TermParser) (raw : Nat)
    (h1 : p.seq.args.length ≤ TERM_PARSER_ARG_MAX)
    (h2 : p.seq.st.length ≤ TERM_PARSER_ST_MAX) :
    step_ok (parser_feed_dcs_ignore p raw) := by
  unfold parser_feed_dcs_ignore
  repeat' split
  all_goals first
    | exact parser_close_ignored_ok _ _ _ h1 h2
    | exact step_ok_none _ ⟨h1, h2⟩

theorem parser_feed_osc_string_ok (p : TermParser) (raw : Nat)
    (h1 : p.seq.args.length ≤ TERM_PARSER_ARG_MAX)
    (h2 : p.seq.st.length ≤ TERM_PARSER_ST_MAX) :
    step_ok (parser_feed_osc_string p raw) := by
  unfold parser_feed_osc_string
  repeat' split
  all_goals first
    | exact parser_close_ok _ _ _ _ h1 h2
    | exact step_ok_none _ ⟨h1, by simp; omega⟩

theorem parser_feed_osc_ignore_ok (p : TermParser) (raw : Nat)
    (h1 : p.seq.args.length ≤ TERM_PARSER_ARG_MAX)
    (h2 : p.seq.st.length ≤ TERM_PARSER_ST_MAX) :
    step_ok (parser_feed_osc_ignore p raw) := by
  unfold parser_feed_osc_ignore
  repeat' split
  all_goals first
    | exact parser_close_ignored_ok _ _ _ h1 h2
    | exact step_ok_none _ ⟨h1, h2⟩

theorem parser_feed_st_ignore_ok (p : TermParser) (raw : Nat)
    (h1 : p.seq.args.length ≤ TERM_PARSER_ARG_MAX)
    (h2 : p.seq.st.length ≤ TERM_PARSER_ST_MAX) :
    step_ok (parser_feed_st_ignore p raw) := by
  unfold parser_feed_st_ignore
  repeat' split
  all_goals first
    | exact step_ok_none _ (parser_inv_reset _ _ _)
    | exact step_ok_none _ ⟨h1, h2⟩

theorem parser_feed_inv (p : TermParser) (raw : Nat) (h : parser_inv p) :
    parser_inv (term_parser_feed p raw).1 ∧
    ∀ s, (term_parser_feed p raw).2 = some s →
      s.args.length ≤ TERM_PARSER_ARG_MAX ∧ s.st.length ≤ TERM_PARSER_ST_MAX := by
  obtain ⟨h1, h2⟩ := h
  have hok : step_ok (term_parser_feed p raw) := by
    unfold term_parser_feed
    split
    · exact step_ok_can_sub _ _
    split
    · split
      · exact parser_to_escape_ok _ (parser_close_ok _ _ _ _ h1 h2)
      · exact parser_to_escape_ok _ (parser_close_ignored_ok _ _ _ h1 h2)
      · exact parser_to_escape_ok _ (parser_close_ok _ _ _ _ h1 h2)
      · exact parser_to_escape_ok _ (parser_close_ignored_ok _ _ _ h1 h2)
      · exact step_ok_none _ (parser_inv_reset _ _ _)
    · split
      · exact parser_feed_ground_ok _ _ h1 h2
      · exact parser_feed_escape_ok _ _ h1 h2
      · exact parser_feed_escape_int_ok _ _ h1 h2
      · exact parser_feed_csi_entry_ok _ _ h1 h2
      · exact parser_feed_csi_param_ok _ _ h1 h2
      · exact parser_feed_csi_int_ok _ _ h1 h2
      · exact parser_feed_csi_ignore_ok _ _ h1 h2
      · exact parser_feed_dcs_entry_ok _ _ h1 h2
      · exact parser_feed_dcs_param_ok _ _ h1 h2
      · exact parser_feed_dcs_int_ok _ _ h1 h2
      · exact parser_feed_dcs_pass_ok _ _ h1 h2
      · exact parser_feed_dcs_ignore_ok _ _ h1 h2
      · exact parser_feed_osc_string_ok _ _ h1 h2
      · exact parser_feed_osc_ignore_ok _ _ h1 h2
      · exact parser_feed_st_ignore_ok _ _ h1 h2
  exact ⟨hok.1, hok.2⟩

/-- Claim C6: the parser's sequence accumulation is bounded and normalized: a
sequence accumulates at most `TERM_PARSER_ARG_MAX = 16` integer arguments and
at most `TERM_PARSER_ST_MAX = 4096` string-payload bytes (every reachable
state and every emitted record respects both bounds, so the parser never
allocates unboundedly); a 17th argument routes the sequence to the CSI IGNORE
state and a string byte beyond 4096 routes OSC accumulation to its IGNORE
mode; the final terminator still closes an ignored sequence, emitting a
record with the synthetic command `TERM_CMD_NONE`; concretely, a CSI
sequence with 17 parameters emits exactly one record with command
`TERM_CMD_NONE` and 16 arguments. -/
theorem term_parser_overflow_bounded :
    (∀ (p : TermParser) (raw : Nat), parser_inv p →
        parser_inv (term_parser_feed p raw).1 ∧
        ∀ s, (term_parser_feed p raw).2 = some s →
          s.args.length ≤ TERM_PARSER_ARG_MAX ∧
          s.st.length ≤ TERM_PARSER_ST_MAX) ∧
    (∀ (p : TermParser) (raw : Nat),
        p.state = .csiParam → p.seq.args.length = TERM_PARSER_ARG_MAX →
        p.cur_arg = none → (raw = 0x3B ∨ parser_digit raw) →
        (term_parser_feed p raw).1.state = .csiIgnore) ∧
    (∀ (p : TermParser) (raw : Nat),
        p.state = .oscString → TERM_PARSER_ST_MAX ≤ p.seq.st.length →
        ¬parser_st_char raw → ¬(raw = 0x18 ∨ raw = 0x1A ∨ raw = 0x1B) →
        (term_parser_feed p raw).1.state = .oscIgnore) ∧
    (∀ (p : TermParser) (raw : Nat),
        p.state = .csiIgnore → parser_final raw →
        (term_parser_feed p raw).2 =
          some { p.seq with
                   type := TERM_SEQ_CSI
                   command := TERM_CMD_NONE
                   terminator := raw }) ∧
    (∀ (p : TermParser) (raw : Nat),
        p.state = .oscIgnore → parser_st_char raw →
        (term_parser_feed p raw).2 =
          some { p.seq with
                   type := TERM_SEQ_OSC
                   command := TERM_CMD_NONE
                   terminator := raw }) ∧
    (term_parser_run (term_parser_init true)
        ([0x1B, 0x5B] ++ (List.replicate 16 [0x31, 0x3B]).flatten ++
          [0x31, 0x48])).2.map (fun s => (s.command, s.args.length)) =
      [(TERM_CMD_NONE, 16)] := by
  refine ⟨parser_feed_inv, ?_, ?_, ?_, ?_, by decide⟩
  · intro p raw hstate hfull hcur hraw
    have hd : ¬(raw = 0x18 ∨ raw = 0x1A) := by
      rcases hraw with hraw | hraw
      · omega
      · unfold parser_digit at hraw; omega
    have he : ¬ raw = 0x1B := by
      rcases hraw with hraw | hraw
      · omega
      · unfold parser_digit at hraw; omega
    unfold term_parser_feed
    rw [if_neg hd, if_neg he, hstate]
    unfold parser_feed_csi_param
    rcases hraw with hraw | hraw
    · rw [if_neg (by unfold parser_digit; omega), if_pos hraw,
        if_neg (by omega)]
    · rw [if_pos hraw, hcur]
      rw [if_neg (by omega)]
  · intro p raw hstate hfull hst hcs
    unfold term_parser_feed
    rw [if_neg (by tauto), if_neg (by tauto), hstate]
    unfold parser_feed_osc_string
    rw [if_neg hst, if_neg (by omega)]
  · intro p raw hstate hfinal
    have hfinal' : 0x40 ≤ raw ∧ raw ≤ 0x7E := hfinal
    unfold term_parser_feed
    rw [if_neg (by omega), if_neg (by omega), hstate]
    unfold parser_feed_csi_ignore
    rw [if_pos hfinal]
    rfl
  · intro p raw hstate hstc
    have hstc' : raw = 0x07 ∨ raw = 0x9C := hstc
    unfold term_parser_feed
    rw [if_neg (by omega), if_neg (by omega), hstate]
    unfold parser_feed_osc_ignore
    rw [if_pos hstc]
    rfl

/-- Witness for C6: the step-invariant applied at the fresh host parser and
the byte `A`. -/
theorem term_parser_overflow_bounded_witness :
    parser_inv (term_parser_feed (term_parser_init true) 0x41).1 :=
  (term_parser_overflow_bounded.1 (term_parser_init true) 0x41 (by decide)).1

/-- Witness for C8: applied at a concrete full history of capacity 1. -/
theorem term_history_cap_invariant_witness :
    term_history_n_lines (histRun ⟨[7], 1⟩ [.push 8]) ≤
      (histRun (⟨[7], 1⟩ : term_history) [.push 8]).max_lines :=
  term_history_cap_invariant.1 ⟨[7], 1⟩ [.push 8] (by decide) (by decide)

end Term
